import Mathlib

/-!
Verification of the orgmunge document-model core (`classes.py`) against its
natural-language specification.

The Python classes are shallowly embedded: pure methods become Lean
functions, attribute mutation becomes explicit state passing, and Python
exceptions become an explicit error type (`PyError`) carried either in
`Except` (when no partial mutation is observable) or in a
`state × Option PyError` pair (when the method mutates before raising).
-/

/-- The kinds of Python exception the embedded code can raise.
`nameError` also stands for `UnboundLocalError`, its subclass. -/
inductive PyError where
  | valueError
  | typeError
  | attributeError
  | nameError
deriving DecidableEq

/-! ## Cookie (`classes.py` lines 12-78) -/

/-- State of a `Cookie` instance: `_cookie_type` is `'percent'`,
`'progress'` or `None`; `_m` and `_n` are the progress bounds. -/
structure Cookie where
  cookie_type : Option String
  m : Int
  n : Int
deriving DecidableEq

/-- The characters Python's `str.strip` and `int` treat as whitespace. -/
def isPySpace (c : Char) : Bool :=
  c = ' ' || c = '\t' || c = '\n' || c = '\r' || c = '\x0b' || c = '\x0c'

/-- `str.strip()` on a character list. -/
def pyStripL (l : List Char) : List Char :=
  ((l.dropWhile isPySpace).reverse.dropWhile isPySpace).reverse

/-- `str.strip()`. -/
def pyStrip (s : String) : String := String.mk (pyStripL s.toList)

/-- Membership of a character in a string (`re.search` of a single
literal character). -/
def pyHasChar (s : String) (c : Char) : Bool := s.toList.contains c

/-- Python's `int(str)`: optional surrounding whitespace, optional sign,
one or more digits; anything else raises `ValueError`. -/
def pyInt (s : String) : Except PyError Int :=
  let t := pyStripL s.toList
  let neg := t.head? = some '-'
  let core := if t.head? = some '-' || t.head? = some '+' then t.drop 1 else t
  if !core.isEmpty && core.all Char.isDigit then
    let mag : Int := Int.ofNat (core.foldl (fun a c => a * 10 + (c.toNat - 48)) 0)
    .ok (if neg then -mag else mag)
  else
    .error .valueError

/-- Indices at which the two-character pattern `p₁p₂` occurs in `l`. -/
def pairIndices (p₁ p₂ : Char) : List Char → Nat → List Nat
  | [], _ => []
  | [_], _ => []
  | a :: b :: rest, i =>
    if a = p₁ && b = p₂ then i :: pairIndices p₁ p₂ (b :: rest) (i + 1)
    else pairIndices p₁ p₂ (b :: rest) (i + 1)

/-- Indices at which character `c` occurs in `l`. -/
def charIndices (c : Char) : List Char → Nat → List Nat
  | [], _ => []
  | a :: rest, i =>
    if a = c then i :: charIndices c rest (i + 1)
    else charIndices c rest (i + 1)

/-- `re.search(r'\[(.+)%\]', text)`: the match starts at the leftmost `[`
that is followed, at least two positions later, by a `%]`; the greedy
`(.+)` group then extends to the last such `%]`.  Returns the group. -/
def matchPercent (text : String) : Option String :=
  let l := text.toList
  let pairs := pairIndices '%' ']' l 0
  let starts := (charIndices '[' l 0).filter fun i => pairs.any fun j => i + 2 ≤ j
  match starts with
  | [] => none
  | i :: _ =>
    let js := pairs.filter fun j => i + 2 ≤ j
    match js.getLast? with
    | some j => some (String.mk ((l.drop (i + 1)).take (j - (i + 1))))
    | none => none

/-- `re.search(r'\[(.*)/(.*)\]', text)`: leftmost `[` admitting a full
match; the greedy groups split at the last eligible `/` and end at the
last `]` after it.  Returns the two groups. -/
def matchProgress (text : String) : Option (String × String) :=
  let l := text.toList
  let closes := charIndices ']' l 0
  let slashes := (charIndices '/' l 0).filter fun j => closes.any fun k => j + 1 ≤ k
  let starts := (charIndices '[' l 0).filter fun i =>
    slashes.any fun j => i + 1 ≤ j
  match starts with
  | [] => none
  | i :: _ =>
    let js := slashes.filter fun j => i + 1 ≤ j
    match js.getLast? with
    | none => none
    | some j =>
      let ks := closes.filter fun k => j + 1 ≤ k
      match ks.getLast? with
      | none => none
      | some k =>
        some (String.mk ((l.drop (i + 1)).take (j - (i + 1))),
              String.mk ((l.drop (j + 1)).take (k - (j + 1))))

/-- `Cookie.__init__`.  Note the final guard: in the percent and no-type
branches the locals `m` and `n` of the f-string
`f'Meaningless cookie value: {m}/{n}'` were never assigned, so reaching
the `raise` there throws `UnboundLocalError` (a `NameError`), not the
intended `ValueError`. -/
def Cookie.init (text : String) : Except PyError Cookie :=
  if pyHasChar text '%' then do
    let mVal ← match matchPercent text with
      | some g => pyInt g
      | none => pure 0
    if mVal > 100 then
      -- `raise ValueError(f'Meaningless cookie value: {m}/{n}')`:
      -- evaluating the message reads unbound locals `m`, `n`.
      .error .nameError
    else
      .ok ⟨some "percent", mVal, 100⟩
  else if pyHasChar text '/' then
    match matchProgress text with
    | none => .error .attributeError  -- `match.group(1)` on `None`
    | some (g1, g2) => do
      let mVal ← if g1 = "" then pure (0 : Int) else pyInt g1
      let nVal ← if g2 = "" then pure (0 : Int) else pyInt g2
      if mVal > nVal then .error .valueError
      else .ok ⟨some "progress", mVal, nVal⟩
  else
    .ok ⟨none, 0, 0⟩

/-- `Cookie.m` setter: rejects a value exceeding the current `n`. -/
def Cookie.setM (c : Cookie) (value : Int) : Except PyError Cookie :=
  if value > c.n then .error .valueError
  else .ok { c with m := value }

/-- `Cookie.n` setter: rejects a value below the current `m`. -/
def Cookie.setN (c : Cookie) (value : Int) : Except PyError Cookie :=
  if value < c.m then .error .valueError
  else .ok { c with n := value }

/-- `Cookie.__repr__`. -/
def Cookie.reprStr (c : Cookie) : String :=
  if c.cookie_type = some "progress" then
    "[" ++ toString c.m ++ "/" ++ toString c.n ++ "]"
  else
    "[" ++ toString c.m ++ "%]"

/-! ## Priority (`classes.py` lines 80-110) -/

/-- `Priority.allowed_values`. -/
def Priority.allowed_values : List String := ["A", "B", "C"]

/-- State of a `Priority` instance. -/
structure Priority where
  priority : String
deriving DecidableEq

/-- The `priority` property setter: only allowed values are accepted. -/
def Priority.setPriority (p : Priority) (value : String) : Except PyError Priority :=
  if Priority.allowed_values.contains value then .ok { p with priority := value }
  else .error .valueError

/-- `list.index(value)`: index of the first occurrence, `ValueError`
(modelled as `none`) when absent. -/
def pyIndexStr (l : List String) (a : String) : Option Nat :=
  match l with
  | [] => none
  | b :: t => if b = a then some 0 else (pyIndexStr t a).map (· + 1)

/-- `Priority._raise`: move to the next allowed value, wrapping modulo the
size of the allowed set. -/
def Priority.raiseP (p : Priority) : Except PyError Priority :=
  match pyIndexStr Priority.allowed_values p.priority with
  | none => .error .valueError
  | some idx =>
    let v := Priority.allowed_values.getD ((idx + 1) % Priority.allowed_values.length) ""
    p.setPriority v

/-- `Priority._lower`: move to the previous allowed value; Python's `%`
on a negative operand yields a nonnegative result, hence `Int.emod`. -/
def Priority.lowerP (p : Priority) : Except PyError Priority :=
  match pyIndexStr Priority.allowed_values p.priority with
  | none => .error .valueError
  | some idx =>
    let j := (Int.emod ((idx : Int) - 1) (Priority.allowed_values.length : Int)).toNat
    let v := Priority.allowed_values.getD j ""
    p.setPriority v

/-- Equality of embedded results is decidable, so witnesses can be
checked by evaluation. -/
instance {ε α : Type} [DecidableEq ε] [DecidableEq α] : DecidableEq (Except ε α) := fun a b =>
  match a, b with
  | .ok x, .ok y =>
    if h : x = y then .isTrue (by rw [h]) else .isFalse (by simp [h])
  | .error x, .error y =>
    if h : x = y then .isTrue (by rw [h]) else .isFalse (by simp [h])
  | .ok _, .error _ => .isFalse (by simp)
  | .error _, .ok _ => .isFalse (by simp)

/-! ## Headline (`classes.py` lines 114-225)

The configured todo/done keyword sets (`Headline._todo_states`,
`Headline._done_states`) are loaded by the out-of-scope configuration
loader (`get_todos` in the tokenizer module); they are passed here as
explicit list parameters, as the spec's design notes prescribe. -/

/-- State of a `Headline` instance. -/
structure Headline where
  level : Nat
  comment : Bool
  todo : Option String
  priority : Option Priority
  title : String
  cookie : Option Cookie
  tags : Option (List String)
deriving DecidableEq

/-- Python `value in states` for an optional string against a list of
keyword strings (`None in [...]` is `False`). -/
def optMem (v : Option String) (states : List String) : Bool :=
  match v with
  | none => false
  | some s => states.contains s

/-- `Headline.is_done`: `True` if the todo keyword is a done state,
`False` if it is unset or a todo state, `ValueError` otherwise. -/
def Headline.is_done (todoStates doneStates : List String) (h : Headline) : Except PyError Bool :=
  if optMem h.todo doneStates then .ok true
  else if h.todo.isNone || optMem h.todo todoStates then .ok false
  else .error .valueError

/-- The `done` property getter delegates to `is_done`. -/
def Headline.doneGet (todoStates doneStates : List String) (h : Headline) : Except PyError Bool :=
  h.is_done todoStates doneStates

/-- The `done` property setter unconditionally raises
`AttributeError("Can't set the 'done' attribute")`. -/
def Headline.setDone (h : Headline) (_ : Bool) : Headline × Option PyError :=
  (h, some .attributeError)

/-- The `todo` property setter.  Both of its paths raise:

* an unknown keyword reaches
  `possible_states = set.union(self._todo_states, self._done_states)`,
  which calls the unbound `set.union` on two plain lists and raises
  `TypeError` before the intended `ValueError` line runs;
* a valid keyword (or `None`) is stored in `_todo`, after which
  `self.done = self.is_done()` invokes the read-only `done` setter,
  which raises `AttributeError` — so the store happens but the call
  still raises. -/
def Headline.setTodo (todoStates doneStates : List String) (h : Headline)
    (value : Option String) : Headline × Option PyError :=
  if !optMem value todoStates && !optMem value doneStates && value.isSome then
    (h, some .typeError)
  else
    ({ h with todo := value }, some .attributeError)

/-- `Headline.promote`: decrement the level by `n`, floored at 1. -/
def Headline.promoteHl (h : Headline) (n : Nat := 1) : Headline :=
  { h with level := max (h.level - n) 1 }

/-- `Headline.demote`: increment the level by `n`. -/
def Headline.demoteHl (h : Headline) (n : Nat := 1) : Headline :=
  { h with level := h.level + n }

/-- `Priority.__repr__`. -/
def Priority.reprStr (p : Priority) : String := "[#" ++ p.priority ++ "]"

/-- `Headline.__repr__`.  Note the unconditional space after the title,
before the (possibly empty) cookie part. -/
def Headline.reprStr (h : Headline) : String :=
  let priority := match h.priority with
    | some p => p.reprStr ++ " "
    | none => ""
  let comment := if h.comment then "COMMENT " else ""
  let todo := match h.todo with
    | some t => if t.isEmpty then "" else t ++ " "
    | none => ""
  let cookie := match h.cookie with
    | some c => c.reprStr
    | none => ""
  let tags := match h.tags with
    | some ts => if ts.isEmpty then "" else "    :" ++ String.intercalate ":" ts ++ ":"
    | none => ""
  String.mk (List.replicate h.level '*') ++ " " ++ todo ++ comment ++ priority
    ++ h.title ++ " " ++ cookie ++ tags

/-! ## TimeStamp (`classes.py` lines 282-394)

A Python `datetime` parsed with `ORG_TIME_FORMAT = '%Y-%m-%d %a %H:%M'`;
when the source text carries no time of day the hour and minute default
to 0, exactly as in `datetime`.  The `%a` day-of-week label is computed
from the date when rendering (`strftime`), never stored. -/

/-- A calendar date plus time of day, minute resolution (the org time
format carries no seconds). -/
structure DateTime where
  year : Nat
  month : Nat
  day : Nat
  hour : Nat
  minute : Nat
deriving DecidableEq

/-- Days since the proleptic-Gregorian era base used by the civil-date
algorithm (Gregorian calendar, valid for all positive years). -/
def daysFromCivil (y m d : Nat) : Nat :=
  let y' := if m ≤ 2 then y - 1 else y
  let era := y' / 400
  let yoe := y' % 400
  let mp := (m + 9) % 12
  let doy := (153 * mp + 2) / 5 + d - 1
  let doe := yoe * 365 + yoe / 4 - yoe / 100 + doy
  era * 146097 + doe

/-- `strftime('%a')`: abbreviated weekday name derived from the date
(calibrated so that 2024-01-01 is `Mon` and 1970-01-01 is `Thu`). -/
def weekdayName (y m d : Nat) : String :=
  ["Wed", "Thu", "Fri", "Sat", "Sun", "Mon", "Tue"].getD (daysFromCivil y m d % 7) ""

/-- Zero-padded two-digit rendering (`%H`, `%M`, `{x:02d}`). -/
def pad2 (n : Nat) : String :=
  if n < 10 then "0" ++ toString n else toString n

/-- Zero-padded four-digit rendering (`%Y`). -/
def pad4 (n : Nat) : String :=
  if n < 10 then "000" ++ toString n
  else if n < 100 then "00" ++ toString n
  else if n < 1000 then "0" ++ toString n
  else toString n

/-- `datetime.strftime(ORG_TIME_FORMAT)`, i.e. `%Y-%m-%d %a %H:%M`. -/
def strftimeOrg (t : DateTime) : String :=
  pad4 t.year ++ "-" ++ pad2 t.month ++ "-" ++ pad2 t.day ++ " "
    ++ weekdayName t.year t.month t.day ++ " " ++ pad2 t.hour ++ ":" ++ pad2 t.minute

/-- State of a `TimeStamp` instance. -/
structure TimeStamp where
  active : Bool
  start_time : DateTime
  end_time : Option DateTime
  repeater : Option String
  deadline_warn : Option String
deriving DecidableEq

/-- `TimeStamp.__repr__`.  The end time is rendered with
`strftime("%H-%M")` — hours and minutes separated by a DASH — exactly as
in the source. -/
def TimeStamp.reprStr (ts : TimeStamp) : String :=
  let ldelim := if ts.active then "<" else "["
  let rdelim := if ts.active then ">" else "]"
  let t1 := strftimeOrg ts.start_time
  let t2 := match ts.end_time with
    | some e => t1 ++ "-" ++ pad2 e.hour ++ "-" ++ pad2 e.minute
    | none => t1
  let t3 := match ts.repeater with
    | some r => t2 ++ " " ++ r
    | none => t2
  let t4 := match ts.deadline_warn with
    | some w => t3 ++ " " ++ w
    | none => t3
  ldelim ++ t4 ++ rdelim

/-! ## Scheduling (`classes.py` lines 228-279) -/

/-- State of a `Scheduling` instance: at most one timestamp per keyword. -/
structure Scheduling where
  closed : Option TimeStamp
  scheduled : Option TimeStamp
  deadline : Option TimeStamp
deriving DecidableEq

/-- The three valid scheduling keywords, in `valid_keywords` order. -/
inductive SchedKw where
  | closed
  | scheduled
  | deadline
deriving DecidableEq

/-- The `Keyword` descriptor's `__set__`: assigning a timestamp to
`closed` forces it inactive and clears end time, repeater and
deadline warning; assigning to `scheduled` or `deadline` forces it
active; any keyword other than `deadline` clears the deadline warning. -/
def Scheduling.setKw (s : Scheduling) (kw : SchedKw) (v : Option TimeStamp) : Scheduling :=
  match v with
  | none =>
    match kw with
    | .closed => { s with closed := none }
    | .scheduled => { s with scheduled := none }
    | .deadline => { s with deadline := none }
  | some ts =>
    match kw with
    | .closed =>
      { s with closed := some { ts with active := false, end_time := none,
                                        repeater := none, deadline_warn := none } }
    | .scheduled =>
      { s with scheduled := some { ts with active := true, deadline_warn := none } }
    | .deadline =>
      { s with deadline := some { ts with active := true } }

/-- `Scheduling.__add__`.  The conflict-checking `for` loop returns or
raises during its FIRST iteration (keyword `'closed'`): if both operands
set `closed` it raises `ValueError`, otherwise it immediately builds and
returns the merged result, never checking `scheduled` or `deadline` for
conflicts — each merged keyword silently prefers the left operand. -/
def Scheduling.add (a b : Scheduling) : Except PyError Scheduling :=
  if a.closed.isSome && b.closed.isSome then
    .error .valueError
  else
    let r : Scheduling := ⟨none, none, none⟩
    let r := r.setKw .closed (a.closed.orElse fun _ => b.closed)
    let r := r.setKw .scheduled (a.scheduled.orElse fun _ => b.scheduled)
    let r := r.setKw .deadline (a.deadline.orElse fun _ => b.deadline)
    .ok r

/-- `Scheduling.__repr__`: space-joined `KEYWORD: timestamp` pairs in
`valid_keywords` order for the keywords that are set. -/
def Scheduling.reprStr (s : Scheduling) : String :=
  let parts :=
    (match s.closed with
     | some t => ["CLOSED: " ++ t.reprStr]
     | none => []) ++
    (match s.scheduled with
     | some t => ["SCHEDULED: " ++ t.reprStr]
     | none => []) ++
    (match s.deadline with
     | some t => ["DEADLINE: " ++ t.reprStr]
     | none => [])
  String.intercalate " " parts

/-! ## Clocking (`classes.py` lines 660-723)

Start and end times are minute-resolution org timestamps; `dt.now()` in
the open-clock branch of `duration` is modelled by passing the current
time explicitly, as seconds on the same epoch as `epochSeconds`. -/

/-- State of a `Clocking` instance (`_duration` is always `None` in the
source and never read, so it is omitted). -/
structure Clocking where
  start_time : DateTime
  end_time : Option DateTime
deriving DecidableEq

/-- Seconds since the civil era base; differences of `epochSeconds`
agree with Python `datetime` subtraction. -/
def epochSeconds (t : DateTime) : Nat :=
  daysFromCivil t.year t.month t.day * 86400 + t.hour * 3600 + t.minute * 60

/-- `Clocking._display_delta` on a nonnegative `timedelta` of
`totalSeconds` seconds.  The Python float pipeline
`m, s = total/60, total%60; if s > 30: m += 1; h, m = m/60, m%60;
d, h = h/24, h%24; floor each` computes exactly the integer
decomposition below (the fractional parts never influence the floors). -/
def display_delta (totalSeconds : Nat) : String :=
  let s := totalSeconds % 60
  let q := totalSeconds / 60
  let q := if s > 30 then q + 1 else q
  let minutes := q % 60
  let hours := q / 60 % 24
  let days := q / 60 / 24
  if days = 0 then
    toString hours ++ ":" ++ pad2 minutes
  else
    toString days ++ "d " ++ toString hours ++ ":" ++ pad2 minutes

/-- The `duration` property getter, with `dt.now()` passed explicitly:
elapsed time from start to now when the clock is open, from start to end
when it is closed. -/
def Clocking.durationAt (c : Clocking) (nowEpoch : Nat) : String :=
  match c.end_time with
  | none => display_delta (nowEpoch - epochSeconds c.start_time)
  | some e => display_delta (epochSeconds e - epochSeconds c.start_time)

/-- The `duration` property setter unconditionally raises `TypeError`. -/
def Clocking.setDuration (c : Clocking) (_ : String) : Clocking × Option PyError :=
  (c, some .typeError)

/-! ## Drawer (`classes.py` lines 396-405) and the Heading renderer
(`classes.py` lines 407-658)

Only the parts of `Heading` that its `__repr__` reaches are embedded:
the stored drawers, the live properties mapping (an ordered key→value
list, as a Python dict preserves insertion order), the body text and the
children.  Python distinguishes `children = None` from `children = []`;
both render as the empty string, so the render-tree model uses a plain
list. -/

/-- State of a `Drawer` instance. -/
structure Drawer where
  name : String
  contents : List String
deriving DecidableEq

/-- `str.split('\n')` (Python `split` with an explicit separator keeps
empty fields). -/
def pySplitNl (s : String) : List String := s.splitOn "\n"

/-- `Drawer.__init__`: the name is the first line with all colons
removed; the contents are the lines of the stripped text between the
first line and the `:END:` line. -/
def Drawer.init (drawer_string : String) : Drawer :=
  let name := String.mk ((((pySplitNl drawer_string).headD "").toList).filter (fun c => c ≠ ':'))
  let contents := ((pySplitNl (pyStrip drawer_string)).drop 1).dropLast
  ⟨name, contents⟩

/-- `Drawer.__repr__` (note the trailing newline). -/
def Drawer.reprStr (d : Drawer) : String :=
  ":" ++ d.name ++ ":\n" ++ String.intercalate "\n" d.contents ++ "\n:END:\n"

/-- `Heading._get_properties_string`: one `:key:       value` line per
property (seven spaces of padding). -/
def propertiesString (props : List (String × String)) : String :=
  String.intercalate "\n" (props.map fun kv => ":" ++ kv.1 ++ ":       " ++ kv.2)

/-- Python `str(list_of_drawers)`: `str` of a list uses the elements'
`__repr__` joined by `", "` inside square brackets. -/
def pyListStr (ds : List Drawer) : String :=
  "[" ++ String.intercalate ", " (ds.map Drawer.reprStr) ++ "]"

/-- The render-tree model of a `Heading` node. -/
inductive Heading where
  | mk (headline : Headline) (scheduling : Option Scheduling)
       (drawers : Option (List Drawer)) (properties : List (String × String))
       (body : String) (children : List Heading)

/-- The `drawers` property getter: regenerates the PROPERTIES drawer
from the live properties mapping — replacing the stored first drawer if
it is the PROPERTIES drawer, or creating a fresh drawer list when no
drawers are stored but properties exist. -/
def drawersGet (stored : Option (List Drawer)) (props : List (String × String)) :
    Option (List Drawer) :=
  let updated := Drawer.init (":PROPERTIES:\n" ++ propertiesString props ++ "\n:END:")
  match stored with
  | some (d :: rest) =>
    if d.name = "PROPERTIES" then some (updated :: rest) else some (d :: rest)
  | some [] => if props.isEmpty then some [] else some [updated]
  | none => if props.isEmpty then none else some [updated]

mutual
/-- `Heading.__repr__`: a body whose text (with its trailing newline)
exceeds 80 characters is truncated to its first 77 characters, stripped,
plus `"...\n"`; the children's renderings are concatenated depth-first. -/
def Heading.reprStr : Heading → String
  | .mk hl sch dr props body cs =>
    let scheduling := match sch with
      | some s => s.reprStr ++ "\n"
      | none => ""
    let drawersV := drawersGet dr props
    let drawers := match drawersV with
      | some l => if l.isEmpty then "" else pyListStr l ++ "\n"
      | none => ""
    let bodyS := if body.isEmpty then "" else body ++ "\n"
    let bodyS :=
      if bodyS.toList.length > 80 then
        pyStrip (String.mk (bodyS.toList.take 77)) ++ "...\n"
      else bodyS
    let newline := if scheduling.isEmpty && drawers.isEmpty && bodyS.isEmpty then "" else "\n"
    hl.reprStr ++ newline ++ scheduling ++ drawers ++ bodyS ++ Heading.reprList cs

/-- `''.join([c.__repr__() for c in self.children])`. -/
def Heading.reprList : List Heading → String
  | [] => ""
  | h :: t => h.reprStr ++ Heading.reprList t
end

/-! ## Heading tree mutation (`classes.py` lines 518-646)

Python headings alias each other through `parent`, `children` and
`sibling` references; the embedding therefore works on an explicit store
mapping node identities (natural numbers) to node states, and each
attribute assignment becomes a single-field store update.  A method that
can raise returns the store at its exit point together with the raised
error, so partial mutation before a raise is observable. -/

/-- The tree-structural state of one `Heading` node: its headline level
and its `parent`/`children`/`sibling` links (`None` and the empty list
are distinct, as in Python). -/
structure HNode where
  level : Nat
  parent : Option Nat
  children : Option (List Nat)
  sibling : Option Nat
deriving DecidableEq

/-- The heap of heading objects: node identity → node state. -/
abbrev Store := Nat → HNode

/-- `self.headline.level = v` (together with `Heading.level`'s setter,
which delegates to the headline). -/
def setLevel (st : Store) (i : Nat) (v : Nat) : Store :=
  fun j => if j = i then { st j with level := v } else st j

/-- `node.parent = v`. -/
def setParent (st : Store) (i : Nat) (v : Option Nat) : Store :=
  fun j => if j = i then { st j with parent := v } else st j

/-- `node.children = v`. -/
def setChildren (st : Store) (i : Nat) (v : Option (List Nat)) : Store :=
  fun j => if j = i then { st j with children := v } else st j

/-- `node.sibling = v`. -/
def setSibling (st : Store) (i : Nat) (v : Option Nat) : Store :=
  fun j => if j = i then { st j with sibling := v } else st j

/-- Python truthiness of a `children` value: `None` and `[]` are falsy. -/
def truthy : Option (List Nat) → Bool
  | none => false
  | some l => !l.isEmpty

/-- `list.index(x)` on node identities: first index, `None` for the
`ValueError` case. -/
def pyIndex (l : List Nat) (a : Nat) : Option Nat :=
  match l with
  | [] => none
  | b :: t => if b = a then some 0 else (pyIndex t a).map (· + 1)

/-- `Heading.remove_child`: when the children list is truthy, drop every
(identity-)occurrence of `c`; otherwise do nothing. -/
def Heading.remove_child (st : Store) (p c : Nat) : Store :=
  match (st p).children with
  | some l => if l.isEmpty then st else setChildren st p (some (l.filter fun y => y ≠ c))
  | none => st

/-- `Heading.add_child`.  With `new = True` the child is appended (or
becomes the sole child).  With `new = False` and a truthy children list,
a child carrying a sibling marker is inserted right after that marker —
raising `ValueError("Incorrect promotion: grand parent doesn't have
original parent in children!")` when the marker is not among the
children — and a marker-less child is prepended. -/
def Heading.add_child (st : Store) (p h : Nat) (new : Bool) : Store × Option PyError :=
  if new then
    match (st p).children with
    | some l =>
      if l.isEmpty then (setChildren st p (some [h]), none)
      else (setChildren st p (some (l ++ [h])), none)
    | none => (setChildren st p (some [h]), none)
  else
    match (st p).children with
    | some l =>
      if l.isEmpty then (setChildren st p (some [h]), none)
      else
        match (st h).sibling with
        | some sb =>
          match pyIndex l sb with
          | some idx =>
            (setChildren st p (some (l.take (idx + 1) ++ h :: l.drop (idx + 1))), none)
          | none => (st, some .valueError)
        | none => (setChildren st p (some (h :: l)), none)
    | none => (setChildren st p (some [h]), none)

/-- `Heading.promote`, statement by statement.  A childful node raises
`TypeError` before any mutation; later failures (a missing parent, a
parent whose children list does not contain the node, a grandparent
whose children list does not contain the parent, a `None` grandparent)
raise AFTER part of the rewrite has been applied. -/
def Heading.promote (st : Store) (x : Nat) : Store × Option PyError :=
  if truthy (st x).children then
    (st, some .typeError)
  else
    let st := setLevel st x (max ((st x).level - 1) 1)
    let st := setSibling st x ((st x).parent)
    match (st x).sibling with
    | none => (st, some .attributeError)
    | some sib =>
      match (st sib).children with
      | none => (st, some .attributeError)
      | some kids =>
        match pyIndex kids x with
        | none => (st, some .valueError)
        | some idx =>
          let next_siblings := kids.drop (idx + 1)
          let st :=
            match next_siblings with
            | [] => st
            | s0 :: _ =>
              let st := setSibling st s0 none
              next_siblings.foldl (fun st s => setParent st s (some x)) st
          let st := setChildren st x (some next_siblings)
          let st := Heading.remove_child st sib x
          let st := next_siblings.foldl (fun st s => Heading.remove_child st sib s) st
          match (st x).parent with
          | none => (st, some .attributeError)
          | some par =>
            let g := (st par).parent
            let st := setParent st x g
            match g with
            | none => (st, some .attributeError)
            | some gp => Heading.add_child st gp x false

/-- The `for child in self.children` loop at the end of
`Heading.demote`: `child.parent = self.parent; self.parent.add_child(child)`.
Both statements read `self.parent`; the first cannot change it (even
when `child is self` it rewrites the same value), so it is read once per
iteration.  When it is `None`, the assignment to `child.parent` succeeds
and `None.add_child` then raises `AttributeError`.  An exception from
`add_child` aborts the loop with the store as mutated so far. -/
def demoteChildLoop (st : Store) (x : Nat) : List Nat → Store × Option PyError
  | [] => (st, none)
  | c :: rest =>
    match (st x).parent with
    | none => (setParent st c none, some .attributeError)
    | some pp =>
      match Heading.add_child (setParent st c (some pp)) pp c false with
      | (st', some e) => (st', some e)
      | (st', none) => demoteChildLoop st' x rest

/-- `if self.parent.children: self.sibling = self.parent.children[-1]
else: self.sibling = None` — `np` is `self.parent` at that point. -/
def demoteSetSibling (st : Store) (x np : Nat) : Store :=
  match (st np).children with
  | some l =>
    match l.getLast? with
    | some last => setSibling st x (some last)
    | none => setSibling st x none
  | none => setSibling st x none

/-- The last statements of `Heading.demote`: `self.parent.add_child(self)`,
the reparenting loop over `self.children`, then `self.children = None`. -/
def demoteReinsert (st : Store) (x np : Nat) : Store × Option PyError :=
  match Heading.add_child st np x false with
  | (st', some e) => (st', some e)
  | (st', none) =>
    let st := st'
    match (st x).children with
    | some (c0 :: cs) =>
      let st := setSibling st c0 (some x)
      match demoteChildLoop st x (c0 :: cs) with
      | (st', some e) => (st', some e)
      | (st', none) => (setChildren st' x none, none)
    | _ => (setChildren st x none, none)

/-- The tail of `Heading.demote`, from
`if self.parent.children: self.sibling = self.parent.children[-1]` on,
with `np` the node's parent at that point (`self.parent`, re-read by
each statement but no longer written): pick the new sibling marker,
re-insert the node under `np`, reparent the node's children there, then
clear the node's children list. -/
def demoteFinish (st : Store) (x np : Nat) : Store × Option PyError :=
  demoteReinsert (demoteSetSibling st x np) x np

/-- `Heading.demote`, statement by statement.  A node without a sibling
marker raises `ValueError` before any mutation. -/
def Heading.demote (st : Store) (x : Nat) : Store × Option PyError :=
  if ((st x).sibling).isNone then
    (st, some .valueError)
  else
    let st := setLevel st x ((st x).level + 1)
    match (st x).parent with
    | none => (st, some .attributeError)
    | some p =>
      match (st p).children with
      | none => (st, some .attributeError)
      | some kids =>
        match pyIndex kids x with
        | none => (st, some .valueError)
        | some idx =>
          let st :=
            match kids.get? (idx + 1) with
            | some ns => setSibling st ns ((st x).sibling)
            | none => st
          let st := Heading.remove_child st p x
          let st := setParent st x ((st x).sibling)
          match (st x).parent with
          | none => (st, some .attributeError)
          | some np => demoteFinish st x np

/-- A four-node tree with inconsistent bookkeeping: node 2's parent is
node 0, but node 0's children list (`[1]`) does not record node 2; node
3 is a childless child of node 2. -/
def stIncons : Store := fun j =>
  if j = 0 then ⟨1, none, some [1], none⟩
  else if j = 1 then ⟨2, some 0, none, none⟩
  else if j = 2 then ⟨2, some 0, some [3], none⟩
  else if j = 3 then ⟨3, some 2, none, none⟩
  else ⟨1, none, none, none⟩

/-- A consistent four-node tree: root 0 with children `[1, 2]`, node 2
carrying sibling marker 1 and one child, node 3. -/
def stDemote : Store := fun j =>
  if j = 0 then ⟨1, none, some [1, 2], none⟩
  else if j = 1 then ⟨2, some 0, none, none⟩
  else if j = 2 then ⟨2, some 0, some [3], some 1⟩
  else if j = 3 then ⟨3, some 2, none, none⟩
  else ⟨1, none, none, none⟩

/-- A consistent two-level tree: root 0 with children `[1, 2, 3]`, all
childless (node 3's children list is the empty list, node 1's is
`None`). -/
def stRoot : Store := fun j =>
  if j = 0 then ⟨1, none, some [1, 2, 3], none⟩
  else if j = 1 then ⟨2, some 0, none, none⟩
  else if j = 2 then ⟨2, some 0, none, some 1⟩
  else if j = 3 then ⟨2, some 0, some [], some 2⟩
  else ⟨1, none, none, none⟩

/-! ### Concrete instances used by the claim theorems -/

/-- The headline `* Test ` (a level-1 heading titled `Test`). -/
def hlTest : Headline := ⟨1, false, none, none, "Test", none, none⟩

/-- A 100-character body. -/
def longBody : String := String.mk (List.replicate 100 'a')

/-- A heading with a 100-character body and no other content. -/
def hLong : Heading := .mk hlTest none none [] longBody []

/-- The same heading with a short body. -/
def hShort : Heading := .mk hlTest none none [] "3+4+5+6" []

/-- The base headline used for the todo-keyword claims, with configured
todo keywords `["TDO"]` and done keywords `["DNE"]`. -/
def hlBase : Headline := ⟨1, false, none, none, "Task", none, none⟩

/-- An active timestamp used as a deadline. -/
def tsD1 : TimeStamp := ⟨true, ⟨2024, 1, 1, 9, 0⟩, none, none, none⟩

/-- Another active timestamp used as a deadline. -/
def tsD2 : TimeStamp := ⟨true, ⟨2024, 2, 2, 10, 0⟩, none, none, none⟩

/-- An inactive point timestamp used as a closed stamp. -/
def tsC1 : TimeStamp := ⟨false, ⟨2024, 3, 3, 8, 0⟩, none, none, none⟩

/-- Another inactive point timestamp used as a closed stamp. -/
def tsC2 : TimeStamp := ⟨false, ⟨2024, 4, 4, 8, 0⟩, none, none, none⟩

/-- The spec's example timestamp: active, `2024-01-01 Mon 09:00` to
`10:30` on the same day. -/
def tsRange : TimeStamp := ⟨true, ⟨2024, 1, 1, 9, 0⟩, some ⟨2024, 1, 1, 10, 30⟩, none, none⟩

/-- A clocking whose end is open, started 2024-01-01 09:00. -/
def clkOpen : Clocking := ⟨⟨2024, 1, 1, 9, 0⟩, none⟩


/-! ### Store lemmas

Each attribute assignment touches one field of one node; the lemmas
below record which fields of which nodes each embedded operation can
change, so that the promote/demote executions can be traced
symbolically. -/

/-- `childList o` is the list a truthy-or-falsy children value denotes. -/
def childList (o : Option (List Nat)) : List Nat := o.getD []

@[simp] theorem setLevel_level (st : Store) (i v j : Nat) :
    (setLevel st i v j).level = if j = i then v else (st j).level := by
  simp only [setLevel]; split <;> rfl

@[simp] theorem setLevel_parent (st : Store) (i v j : Nat) :
    (setLevel st i v j).parent = (st j).parent := by
  simp only [setLevel]; split <;> rfl

@[simp] theorem setLevel_children (st : Store) (i v j : Nat) :
    (setLevel st i v j).children = (st j).children := by
  simp only [setLevel]; split <;> rfl

@[simp] theorem setLevel_sibling (st : Store) (i v j : Nat) :
    (setLevel st i v j).sibling = (st j).sibling := by
  simp only [setLevel]; split <;> rfl

@[simp] theorem setParent_level (st : Store) (i : Nat) (v : Option Nat) (j : Nat) :
    (setParent st i v j).level = (st j).level := by
  simp only [setParent]; split <;> rfl

@[simp] theorem setParent_parent (st : Store) (i : Nat) (v : Option Nat) (j : Nat) :
    (setParent st i v j).parent = if j = i then v else (st j).parent := by
  simp only [setParent]; split <;> rfl

@[simp] theorem setParent_children (st : Store) (i : Nat) (v : Option Nat) (j : Nat) :
    (setParent st i v j).children = (st j).children := by
  simp only [setParent]; split <;> rfl

@[simp] theorem setParent_sibling (st : Store) (i : Nat) (v : Option Nat) (j : Nat) :
    (setParent st i v j).sibling = (st j).sibling := by
  simp only [setParent]; split <;> rfl

@[simp] theorem setChildren_level (st : Store) (i : Nat) (v : Option (List Nat)) (j : Nat) :
    (setChildren st i v j).level = (st j).level := by
  simp only [setChildren]; split <;> rfl

@[simp] theorem setChildren_parent (st : Store) (i : Nat) (v : Option (List Nat)) (j : Nat) :
    (setChildren st i v j).parent = (st j).parent := by
  simp only [setChildren]; split <;> rfl

@[simp] theorem setChildren_children (st : Store) (i : Nat) (v : Option (List Nat)) (j : Nat) :
    (setChildren st i v j).children = if j = i then v else (st j).children := by
  simp only [setChildren]; split <;> rfl

@[simp] theorem setChildren_sibling (st : Store) (i : Nat) (v : Option (List Nat)) (j : Nat) :
    (setChildren st i v j).sibling = (st j).sibling := by
  simp only [setChildren]; split <;> rfl

@[simp] theorem setSibling_level (st : Store) (i : Nat) (v : Option Nat) (j : Nat) :
    (setSibling st i v j).level = (st j).level := by
  simp only [setSibling]; split <;> rfl

@[simp] theorem setSibling_parent (st : Store) (i : Nat) (v : Option Nat) (j : Nat) :
    (setSibling st i v j).parent = (st j).parent := by
  simp only [setSibling]; split <;> rfl

@[simp] theorem setSibling_children (st : Store) (i : Nat) (v : Option Nat) (j : Nat) :
    (setSibling st i v j).children = (st j).children := by
  simp only [setSibling]; split <;> rfl

@[simp] theorem setSibling_sibling (st : Store) (i : Nat) (v : Option Nat) (j : Nat) :
    (setSibling st i v j).sibling = if j = i then v else (st j).sibling := by
  simp only [setSibling]; split <;> rfl

@[simp] theorem remove_child_level (st : Store) (p c j : Nat) :
    (Heading.remove_child st p c j).level = (st j).level := by
  unfold Heading.remove_child
  cases h : (st p).children with
  | none => rfl
  | some l => by_cases hl : l.isEmpty <;> simp [hl]

@[simp] theorem remove_child_parent (st : Store) (p c j : Nat) :
    (Heading.remove_child st p c j).parent = (st j).parent := by
  unfold Heading.remove_child
  cases h : (st p).children with
  | none => rfl
  | some l => by_cases hl : l.isEmpty <;> simp [hl]

@[simp] theorem remove_child_sibling (st : Store) (p c j : Nat) :
    (Heading.remove_child st p c j).sibling = (st j).sibling := by
  unfold Heading.remove_child
  cases h : (st p).children with
  | none => rfl
  | some l => by_cases hl : l.isEmpty <;> simp [hl]

theorem remove_child_children_ne (st : Store) (p c j : Nat) (hj : j ≠ p) :
    (Heading.remove_child st p c j).children = (st j).children := by
  unfold Heading.remove_child
  cases h : (st p).children with
  | none => rfl
  | some l => by_cases hl : l.isEmpty <;> simp [hl, hj]

theorem remove_child_children_self (st : Store) (p c : Nat) (l : List Nat)
    (h : (st p).children = some l) :
    (Heading.remove_child st p c p).children = some (l.filter fun y => y ≠ c) := by
  unfold Heading.remove_child
  rw [h]
  cases l with
  | nil => simpa using h
  | cons a t => simp

theorem add_child_fst_level (st : Store) (p h : Nat) (b : Bool) (j : Nat) :
    ((Heading.add_child st p h b).1 j).level = (st j).level := by
  unfold Heading.add_child
  repeat' split
  all_goals simp

theorem add_child_fst_parent (st : Store) (p h : Nat) (b : Bool) (j : Nat) :
    ((Heading.add_child st p h b).1 j).parent = (st j).parent := by
  unfold Heading.add_child
  repeat' split
  all_goals simp

theorem add_child_fst_sibling (st : Store) (p h : Nat) (b : Bool) (j : Nat) :
    ((Heading.add_child st p h b).1 j).sibling = (st j).sibling := by
  unfold Heading.add_child
  repeat' split
  all_goals simp

theorem add_child_fst_children_ne (st : Store) (p h : Nat) (b : Bool) (j : Nat)
    (hj : j ≠ p) :
    ((Heading.add_child st p h b).1 j).children = (st j).children := by
  unfold Heading.add_child
  repeat' split
  all_goals simp [hj]

/-- Membership is preserved when an element is inserted mid-list. -/
theorem mem_take_insert_drop {a h n : Nat} {l : List Nat} (ha : a ∈ l) :
    a ∈ l.take n ++ h :: l.drop n := by
  rw [List.mem_append, List.mem_cons]
  rcases List.mem_append.1 ((List.take_append_drop n l).symm ▸ ha) with h1 | h1
  · exact .inl h1
  · exact .inr (.inr h1)

/-- `add_child` either raises `ValueError` leaving the store untouched,
or succeeds and rewrites exactly the target's children list, to a list
that contains the new child and every previous child. -/
theorem add_child_cases (st : Store) (p h : Nat) (b : Bool) :
    ((Heading.add_child st p h b).2 = some PyError.valueError ∧
      (Heading.add_child st p h b).1 = st) ∨
    ((Heading.add_child st p h b).2 = none ∧
      ∃ l, (Heading.add_child st p h b).1 = setChildren st p (some l) ∧ h ∈ l ∧
        ∀ a ∈ childList ((st p).children), a ∈ l) := by
  unfold Heading.add_child
  repeat' split
  all_goals try (left; exact ⟨rfl, rfl⟩)
  all_goals right
  all_goals refine ⟨rfl, _, rfl, ?_, ?_⟩
  all_goals try simp_all [childList, List.isEmpty_iff]
  all_goals intro a ha
  all_goals simpa using mem_take_insert_drop ha

/-- `demoteChildLoop` preserves the looping node's parent pointer. -/
theorem loop_parent_x (cs : List Nat) :
    ∀ (st : Store) (x : Nat), ((demoteChildLoop st x cs).1 x).parent = (st x).parent := by
  induction cs with
  | nil => intro st x; rfl
  | cons c rest ih =>
    intro st x
    unfold demoteChildLoop
    cases hp : (st x).parent with
    | none =>
      simp only [setParent_parent]
      split <;> simp [hp]
    | some pp =>
      rcases hac : Heading.add_child (setParent st c (some pp)) pp c false with ⟨st', e⟩
      have hpres := add_child_fst_parent (setParent st c (some pp)) pp c false x
      rw [hac] at hpres
      simp only at hpres
      have hsp : (setParent st c (some pp) x).parent = (st x).parent := by
        rw [setParent_parent]; split <;> simp [hp]
      cases e with
      | none =>
        simp only [hac]
        rw [ih st' x, hpres, hsp, hp]
      | some e =>
        simp only [hac]
        rw [hpres, hsp, hp]

/-- `demoteChildLoop` never changes any sibling marker. -/
theorem loop_sibling (cs : List Nat) :
    ∀ (st : Store) (x j : Nat), ((demoteChildLoop st x cs).1 j).sibling = (st j).sibling := by
  induction cs with
  | nil => intro st x j; rfl
  | cons c rest ih =>
    intro st x j
    unfold demoteChildLoop
    cases hp : (st x).parent with
    | none => simp
    | some pp =>
      rcases hac : Heading.add_child (setParent st c (some pp)) pp c false with ⟨st', e⟩
      have hpres := add_child_fst_sibling (setParent st c (some pp)) pp c false j
      rw [hac] at hpres
      simp only at hpres
      cases e with
      | none => simp only [hac]; rw [ih st' x j, hpres, setParent_sibling]
      | some e => simp only [hac]; rw [hpres, setParent_sibling]

/-- Any parent pointer after `demoteChildLoop` is either its old value
or the looping node's parent. -/
theorem loop_parent_or (cs : List Nat) :
    ∀ (st : Store) (x j : Nat),
      ((demoteChildLoop st x cs).1 j).parent = (st j).parent ∨
      ((demoteChildLoop st x cs).1 j).parent = (st x).parent := by
  induction cs with
  | nil => intro st x j; exact .inl rfl
  | cons c rest ih =>
    intro st x j
    unfold demoteChildLoop
    cases hp : (st x).parent with
    | none =>
      simp only [setParent_parent]
      split
      · exact .inr rfl
      · exact .inl rfl
    | some pp =>
      rcases hac : Heading.add_child (setParent st c (some pp)) pp c false with ⟨st', e⟩
      have hj := add_child_fst_parent (setParent st c (some pp)) pp c false j
      have hx := add_child_fst_parent (setParent st c (some pp)) pp c false x
      rw [hac] at hj hx
      simp only at hj hx
      have hsx : (setParent st c (some pp) x).parent = some pp := by
        rw [setParent_parent]; split <;> simp [hp]
      have hsj : (setParent st c (some pp) j).parent = (st j).parent ∨
          (setParent st c (some pp) j).parent = some pp := by
        rw [setParent_parent]; split
        · exact .inr rfl
        · exact .inl rfl
      cases e with
      | none =>
        simp only [hac]
        rcases ih st' x j with h | h
        · rw [h, hj]; exact hsj
        · rw [h, hx, hsx]; exact .inr rfl
      | some e =>
        simp only [hac]
        rw [hj]; exact hsj

/-- When `demoteChildLoop` finishes without raising, every looped child
ends with its parent set to the looping node's parent pointer. -/
theorem loop_success_parents (cs : List Nat) :
    ∀ (st : Store) (x np : Nat), (st x).parent = some np →
      (demoteChildLoop st x cs).2 = none →
      ∀ c ∈ cs, ((demoteChildLoop st x cs).1 c).parent = some np := by
  induction cs with
  | nil => intro st x np _ _ c hc; simp at hc
  | cons c0 rest ih =>
    intro st x np hnp hs c hc
    unfold demoteChildLoop at hs ⊢
    cases hp : (st x).parent with
    | none => rw [hp] at hnp; exact absurd hnp (by simp)
    | some pp =>
      rw [hp] at hnp
      have hppnp : pp = np := by injection hnp
      subst hppnp
      rw [hp] at hs
      simp only at hs ⊢
      rcases hac : Heading.add_child (setParent st c0 (some pp)) pp c0 false with ⟨st', e⟩
      rw [hac] at hs
      cases e with
      | some e => simp at hs
      | none =>
        simp only at hs
        simp only [hac]
        have hx' := add_child_fst_parent (setParent st c0 (some pp)) pp c0 false x
        rw [hac] at hx'
        simp only at hx'
        have hsx : (setParent st c0 (some pp) x).parent = some pp := by
          rw [setParent_parent]; split <;> simp [hp]
        have hstx' : (st' x).parent = some pp := by rw [hx', hsx]
        rcases List.mem_cons.1 hc with hc0 | hcr
        · subst hc0
          have hc' := add_child_fst_parent (setParent st c (some pp)) pp c false c
          rw [hac] at hc'
          simp only at hc'
          have hcv : (st' c).parent = some pp := by
            rw [hc', setParent_parent, if_pos rfl]
          rcases loop_parent_or rest st' x c with h | h
          · rw [h, hcv]
          · rw [h, hstx']
        · exact ih st' x pp hstx' hs c hcr

/-- `demoteChildLoop` never removes a node from a children list. -/
theorem loop_mem_mono (cs : List Nat) :
    ∀ (st : Store) (x j a : Nat),
      a ∈ childList ((st j).children) →
      a ∈ childList (((demoteChildLoop st x cs).1 j).children) := by
  induction cs with
  | nil => intro st x j a ha; exact ha
  | cons c rest ih =>
    intro st x j a ha
    unfold demoteChildLoop
    cases hp : (st x).parent with
    | none => simpa [childList] using ha
    | some pp =>
      have ha1 : a ∈ childList ((setParent st c (some pp) j).children) := by
        rw [childList, setParent_children]; exact ha
      rcases hac : Heading.add_child (setParent st c (some pp)) pp c false with ⟨st', e⟩
      have ha2 : a ∈ childList ((st' j).children) := by
        rcases add_child_cases (setParent st c (some pp)) pp c false with
          ⟨_, heq⟩ | ⟨_, l, heq, _, hmono⟩
        · rw [hac] at heq; simp only at heq; rw [heq]; exact ha1
        · rw [hac] at heq; simp only at heq
          by_cases hjp : j = pp
          · subst hjp
            rw [heq, childList, setChildren_children, if_pos rfl]
            exact hmono a ha1
          · rw [heq, childList, setChildren_children, if_neg hjp]
            exact ha1
      cases e with
      | none => simp only [hac]; exact ih st' x j a ha2
      | some e => simp only [hac]; exact ha2

/-- When `demoteChildLoop` finishes without raising, every looped child
is a member of the children list of the looping node's parent. -/
theorem loop_success_mem (cs : List Nat) :
    ∀ (st : Store) (x np : Nat), (st x).parent = some np →
      (demoteChildLoop st x cs).2 = none →
      ∀ c ∈ cs, c ∈ childList (((demoteChildLoop st x cs).1 np).children) := by
  induction cs with
  | nil => intro st x np _ _ c hc; simp at hc
  | cons c0 rest ih =>
    intro st x np hnp hs c hc
    unfold demoteChildLoop at hs ⊢
    cases hp : (st x).parent with
    | none => rw [hp] at hnp; exact absurd hnp (by simp)
    | some pp =>
      rw [hp] at hnp
      have hppnp : pp = np := by injection hnp
      subst hppnp
      rw [hp] at hs
      simp only at hs ⊢
      rcases hac : Heading.add_child (setParent st c0 (some pp)) pp c0 false with ⟨st', e⟩
      rw [hac] at hs
      cases e with
      | some e => simp at hs
      | none =>
        simp only at hs
        simp only [hac]
        have hx' := add_child_fst_parent (setParent st c0 (some pp)) pp c0 false x
        rw [hac] at hx'
        simp only at hx'
        have hsx : (setParent st c0 (some pp) x).parent = some pp := by
          rw [setParent_parent]; split <;> simp [hp]
        have hstx' : (st' x).parent = some pp := by rw [hx', hsx]
        rcases List.mem_cons.1 hc with hc0 | hcr
        · subst hc0
          have hcmem : c ∈ childList ((st' pp).children) := by
            rcases add_child_cases (setParent st c (some pp)) pp c false with
              ⟨he, _⟩ | ⟨_, l, heq, hmem, _⟩
            · rw [hac] at he; simp at he
            · rw [hac] at heq; simp only at heq
              rw [heq, childList, setChildren_children, if_pos rfl]
              exact hmem
          exact loop_mem_mono rest st' x pp c hcmem
        · exact ih st' x pp hstx' hs c hcr

/-- Effect of the `for s in next_siblings: s.parent = self` loop:
pointwise, members of the list get the new parent, others keep theirs. -/
theorem foldParent_apply (B : List Nat) (v : Option Nat) :
    ∀ (st : Store) (j : Nat),
      (B.foldl (fun st s => setParent st s v) st) j
        = if j ∈ B then { st j with parent := v } else st j := by
  induction B with
  | nil => intro st j; simp
  | cons b B' ih =>
    intro st j
    rw [List.foldl_cons, ih]
    by_cases hb : j ∈ B'
    · rw [if_pos hb, if_pos (List.mem_cons_of_mem b hb)]
      unfold setParent
      by_cases hjb : j = b <;> simp [hjb]
    · rw [if_neg hb]
      unfold setParent
      by_cases hjb : j = b
      · rw [if_pos hjb, if_pos (hjb ▸ List.mem_cons_self b B')]
      · rw [if_neg hjb, if_neg (by simp [hjb, hb])]

/-- The `for s in next_siblings: self.sibling.remove_child(s)` loop
only rewrites node `p`'s children. -/
theorem foldRemove_apply_ne (B : List Nat) (p : Nat) :
    ∀ (st : Store) (j : Nat), j ≠ p →
      (B.foldl (fun st s => Heading.remove_child st p s) st) j = st j := by
  induction B with
  | nil => intro st j _; rfl
  | cons b B' ih =>
    intro st j hj
    rw [List.foldl_cons, ih _ _ hj]
    unfold Heading.remove_child
    cases h : (st p).children with
    | none => rfl
    | some l =>
      by_cases hl : l.isEmpty <;> simp [hl, setChildren, hj]

/-- Children value of `p` after sequentially removing every member of
`B`: each step filters the current list. -/
theorem foldRemove_children (B : List Nat) (p : Nat) :
    ∀ (st : Store) (l : List Nat), (st p).children = some l →
      ((B.foldl (fun st s => Heading.remove_child st p s) st) p).children
        = some (B.foldl (fun l s => l.filter fun y => y ≠ s) l) := by
  induction B with
  | nil => intro st l h; simpa using h
  | cons b B' ih =>
    intro st l h
    rw [List.foldl_cons, List.foldl_cons]
    exact ih _ _ (remove_child_children_self st p b l h)

/-- Sequentially filtering out every member of `B` is one filter. -/
theorem listRemoveAll_eq_filter (B : List Nat) :
    ∀ l : List Nat,
      B.foldl (fun l s => l.filter fun y => y ≠ s) l
        = l.filter fun y => decide (y ∉ B) := by
  induction B with
  | nil => intro l; simp
  | cons b B' ih =>
    intro l
    rw [List.foldl_cons, ih, List.filter_filter]
    congr 1
    funext y
    by_cases hyb : y = b <;> by_cases hyB : y ∈ B' <;> simp [hyb, hyB]

/-- `pyIndex` finds the first occurrence: the list decomposes around it
and the element does not occur before it. -/
theorem pyIndex_decomp (l : List Nat) (a : Nat) :
    ∀ i : Nat, pyIndex l a = some i →
      l.take i ++ a :: l.drop (i + 1) = l ∧ a ∉ l.take i := by
  induction l with
  | nil => intro i h; simp [pyIndex] at h
  | cons b t ih =>
    intro i h
    unfold pyIndex at h
    by_cases hb : b = a
    · rw [if_pos hb] at h
      have hi : i = 0 := by injection h with h'; exact h'.symm
      subst hi
      subst hb
      simp
    · rw [if_neg hb] at h
      cases h' : pyIndex t a with
      | none => rw [h'] at h; simp at h
      | some i' =>
        rw [h'] at h
        simp only [Option.map_some'] at h
        have hi : i = i' + 1 := by injection h with h'; exact h'.symm
        subst hi
        obtain ⟨h1, h2⟩ := ih i' h'
        constructor
        · rw [List.take_succ_cons, List.drop_succ_cons, List.cons_append, h1]
        · rw [List.take_succ_cons]
          intro hmem
          rcases List.mem_cons.1 hmem with hab | hmem'
          · exact hb hab.symm
          · exact h2 hmem'

/-- A member of a list has a `pyIndex`. -/
theorem pyIndex_isSome_of_mem {l : List Nat} {a : Nat} (h : a ∈ l) :
    ∃ i, pyIndex l a = some i := by
  induction l with
  | nil => simp at h
  | cons b t ih =>
    unfold pyIndex
    by_cases hb : b = a
    · exact ⟨0, by rw [if_pos hb]⟩
    · rcases List.mem_cons.1 h with hab | hmem
      · exact absurd hab.symm hb
      · obtain ⟨i, hi⟩ := ih hmem
        exact ⟨i + 1, by rw [if_neg hb, hi, Option.map_some']⟩

/-- The last element of a nonempty list is a member. -/
theorem mem_of_getLast? {l : List Nat} {a : Nat} (h : l.getLast? = some a) : a ∈ l := by
  induction l with
  | nil => simp at h
  | cons b t ih =>
    cases t with
    | nil => simp_all
    | cons c u =>
      rw [List.getLast?_cons_cons] at h
      exact List.mem_cons_of_mem b (ih h)

theorem foldParent_level (B : List Nat) (v : Option Nat) (st : Store) (j : Nat) :
    ((B.foldl (fun st s => setParent st s v) st) j).level = (st j).level := by
  rw [foldParent_apply]; split <;> rfl

theorem foldParent_children (B : List Nat) (v : Option Nat) (st : Store) (j : Nat) :
    ((B.foldl (fun st s => setParent st s v) st) j).children = (st j).children := by
  rw [foldParent_apply]; split <;> rfl

theorem foldParent_sibling (B : List Nat) (v : Option Nat) (st : Store) (j : Nat) :
    ((B.foldl (fun st s => setParent st s v) st) j).sibling = (st j).sibling := by
  rw [foldParent_apply]; split <;> rfl

theorem foldParent_parent_of_not_mem (B : List Nat) (v : Option Nat) (st : Store)
    (j : Nat) (h : j ∉ B) :
    ((B.foldl (fun st s => setParent st s v) st) j).parent = (st j).parent := by
  rw [foldParent_apply, if_neg h]

theorem foldParent_parent_of_mem (B : List Nat) (v : Option Nat) (st : Store)
    (j : Nat) (h : j ∈ B) :
    ((B.foldl (fun st s => setParent st s v) st) j).parent = v := by
  rw [foldParent_apply, if_pos h]

theorem foldRemove_parent (B : List Nat) (p : Nat) :
    ∀ (st : Store) (j : Nat),
      ((B.foldl (fun st s => Heading.remove_child st p s) st) j).parent = (st j).parent := by
  induction B with
  | nil => intro st j; rfl
  | cons b B' ih => intro st j; rw [List.foldl_cons, ih, remove_child_parent]

theorem foldRemove_level (B : List Nat) (p : Nat) :
    ∀ (st : Store) (j : Nat),
      ((B.foldl (fun st s => Heading.remove_child st p s) st) j).level = (st j).level := by
  induction B with
  | nil => intro st j; rfl
  | cons b B' ih => intro st j; rw [List.foldl_cons, ih, remove_child_level]

theorem foldRemove_sibling (B : List Nat) (p : Nat) :
    ∀ (st : Store) (j : Nat),
      ((B.foldl (fun st s => Heading.remove_child st p s) st) j).sibling = (st j).sibling := by
  induction B with
  | nil => intro st j; rfl
  | cons b B' ih => intro st j; rw [List.foldl_cons, ih, remove_child_sibling]

/-- Removing the promoted node and then each of its former following
siblings from the former parent's children leaves exactly the children
that preceded the node (for a duplicate-free children list). -/
theorem filter_drop_eq_take (kids : List Nat) (x idx : Nat)
    (h1 : kids.take idx ++ x :: kids.drop (idx + 1) = kids)
    (hnd : kids.Nodup) :
    ((kids.filter fun y => y ≠ x).filter fun y => decide (y ∉ kids.drop (idx + 1)))
      = kids.take idx := by
  have hnd' : (kids.take idx ++ x :: kids.drop (idx + 1)).Nodup := h1.symm ▸ hnd
  rw [List.nodup_append] at hnd'
  obtain ⟨hndA, hndC, hdisj⟩ := hnd'
  have hxB : x ∉ kids.drop (idx + 1) := (List.nodup_cons.1 hndC).1
  have hAx : ∀ a ∈ kids.take idx, a ≠ x := fun a ha =>
    fun hax => hdisj ha (hax ▸ List.mem_cons_self x _)
  have hAB : ∀ a ∈ kids.take idx, a ∉ kids.drop (idx + 1) := fun a ha hb =>
    hdisj ha (List.mem_cons_of_mem x hb)
  have e1 : (kids.take idx).filter (fun y => y ≠ x) = kids.take idx := by
    rw [List.filter_eq_self]
    intro a ha
    simpa using hAx a ha
  have e2 : ((x :: kids.drop (idx + 1)).filter fun y => y ≠ x)
      = kids.drop (idx + 1) := by
    rw [List.filter_cons_of_neg (by simp), List.filter_eq_self]
    intro a ha
    have hax : a ≠ x := fun hax => hxB (hax ▸ ha)
    simpa using hax
  have hf1 : (kids.filter fun y => y ≠ x) = kids.take idx ++ kids.drop (idx + 1) := by
    conv_lhs => rw [← h1]
    rw [List.filter_append, e1, e2]
  have e3 : (kids.take idx).filter (fun y => decide (y ∉ kids.drop (idx + 1)))
      = kids.take idx := by
    rw [List.filter_eq_self]
    intro a ha
    simpa using hAB a ha
  have e4 : (kids.drop (idx + 1)).filter (fun y => decide (y ∉ kids.drop (idx + 1)))
      = [] := by
    rw [List.filter_eq_nil_iff]
    intro a ha
    simpa using ha
  rw [hf1, List.filter_append, e3, e4, List.append_nil]

/-- Sequentially removing the node and then its former following
siblings from the former parent's children list leaves the children
that preceded the node. -/
theorem removeAll_eq_take (kids : List Nat) (x idx : Nat)
    (h1 : kids.take idx ++ x :: kids.drop (idx + 1) = kids) (hnd : kids.Nodup) :
    (kids.drop (idx + 1)).foldl (fun l s => l.filter fun y => y ≠ s)
      (kids.filter fun y => y ≠ x) = kids.take idx := by
  rw [listRemoveAll_eq_filter, filter_drop_eq_take kids x idx h1 hnd]

/-- Claim C10: promoting a childless child of the tree root (its parent
exists, the parent has no parent) raises `AttributeError` from
`None.add_child`, and only after mutating the tree: the node's level is
already decremented (floored at 1), the node and its former following
siblings are already removed from the former parent's children, those
siblings are reparented under the node, and the node's parent is set to
`None` — so the tree is left partially mutated. -/
theorem claim_C10_promote_root_child (st : Store) (x p : Nat) (kids : List Nat) (idx : Nat)
    (hch : truthy (st x).children = false)
    (hpar : (st x).parent = some p)
    (hxp : x ≠ p)
    (hgp : (st p).parent = none)
    (hkids : (st p).children = some kids)
    (hidx : pyIndex kids x = some idx)
    (hpk : p ∉ kids)
    (hnd : kids.Nodup) :
    (Heading.promote st x).2 = some PyError.attributeError ∧
    ((Heading.promote st x).1 x).level = max ((st x).level - 1) 1 ∧
    ((Heading.promote st x).1 p).children = some (kids.take idx) ∧
    (∀ s ∈ kids.drop (idx + 1), ((Heading.promote st x).1 s).parent = some x) ∧
    ((Heading.promote st x).1 x).children = some (kids.drop (idx + 1)) ∧
    ((Heading.promote st x).1 x).parent = none := by
  obtain ⟨hdec, hxtake⟩ := pyIndex_decomp kids x idx hidx
  have hmemkids : ∀ a, a ∈ kids.drop (idx + 1) → a ∈ kids := fun a ha => by
    rw [← hdec]; exact List.mem_append.2 (.inr (List.mem_cons_of_mem x ha))
  have hnd' : (kids.take idx ++ x :: kids.drop (idx + 1)).Nodup := hdec.symm ▸ hnd
  rw [List.nodup_append] at hnd'
  have hxB : x ∉ kids.drop (idx + 1) := (List.nodup_cons.1 hnd'.2.1).1
  have hpB : p ∉ kids.drop (idx + 1) := fun h => hpk (hmemkids p h)
  have hxBF : (x ∈ kids.drop (idx + 1)) = False := eq_false hxB
  have hpBF : (p ∈ kids.drop (idx + 1)) = False := eq_false hpB
  have hpxF : (p = x) = False := eq_false (Ne.symm hxp)
  have hxpF : (x = p) = False := eq_false hxp
  have hcond : ¬(truthy (st x).children = true) := by rw [hch]; simp
  cases hB : kids.drop (idx + 1) with
  | nil =>
    have hrun : Heading.promote st x =
        (setParent (Heading.remove_child (setChildren (setSibling
            (setLevel st x (max ((st x).level - 1) 1)) x (some p)) x (some []))
            p x) x none,
         some PyError.attributeError) := by
      unfold Heading.promote
      rw [if_neg hcond]
      simp only [setLevel_level, setLevel_parent, setLevel_children, setLevel_sibling,
        setSibling_level, setSibling_parent, setSibling_children, setSibling_sibling,
        setChildren_level, setChildren_parent, setChildren_children, setChildren_sibling,
        setParent_level, setParent_parent, setParent_children, setParent_sibling,
        remove_child_level, remove_child_parent, remove_child_sibling,
        hpar, hkids, hidx, hB, hgp, hpxF, hxpF, if_true, ite_self,
        List.foldl_nil, eq_self_iff_true]
    rw [hrun]
    have hremx : (Heading.remove_child (setChildren (setSibling
        (setLevel st x (max ((st x).level - 1) 1)) x (some p)) x (some []))
        p x x).children = some [] := by
      rw [remove_child_children_ne _ _ _ _ hxp]
      simp
    have hremp : (Heading.remove_child (setChildren (setSibling
        (setLevel st x (max ((st x).level - 1) 1)) x (some p)) x (some []))
        p x p).children = some (kids.filter fun y => y ≠ x) := by
      refine remove_child_children_self _ _ _ kids ?_
      simp [hpxF, hkids]
    have htake : (kids.filter fun y => y ≠ x) = kids.take idx := by
      have h := removeAll_eq_take kids x idx hdec hnd
      rw [hB] at h
      simpa using h
    refine ⟨rfl, ?_, ?_, ?_, ?_, ?_⟩
    · simp
    · simp only [setParent_children, hremp, htake]
    · intro s hs; simp at hs
    · simp only [setParent_children, hremx, hB]
    · simp
  | cons s0 rest =>
    have hxB' : (x ∈ s0 :: rest) = False := hB ▸ hxBF
    have hpB' : (p ∈ s0 :: rest) = False := hB ▸ hpBF
    have hrun : Heading.promote st x =
        (setParent ((s0 :: rest).foldl (fun st s => Heading.remove_child st p s)
            (Heading.remove_child (setChildren ((s0 :: rest).foldl
              (fun st s => setParent st s (some x))
              (setSibling (setSibling (setLevel st x (max ((st x).level - 1) 1))
                x (some p)) s0 none)) x (some (s0 :: rest))) p x)) x none,
         some PyError.attributeError) := by
      unfold Heading.promote
      rw [if_neg hcond]
      simp only [setLevel_level, setLevel_parent, setLevel_children, setLevel_sibling,
        setSibling_level, setSibling_parent, setSibling_children, setSibling_sibling,
        setChildren_level, setChildren_parent, setChildren_children, setChildren_sibling,
        setParent_level, setParent_parent, setParent_children, setParent_sibling,
        remove_child_level, remove_child_parent, remove_child_sibling,
        foldRemove_parent, foldRemove_level, foldRemove_sibling,
        foldParent_apply, foldParent_level, foldParent_children, foldParent_sibling,
        hpar, hkids, hidx, hB, hgp, hpxF, hxpF, hxB', hpB', if_true, ite_self,
        ite_false, if_false, eq_self_iff_true]
    rw [hrun]
    set stA := setSibling (setSibling (setLevel st x (max ((st x).level - 1) 1))
      x (some p)) s0 none with hstA
    set stB := (s0 :: rest).foldl (fun st s => setParent st s (some x)) stA with hstB
    set stC := Heading.remove_child (setChildren stB x (some (s0 :: rest))) p x with hstC
    set stD := (s0 :: rest).foldl (fun st s => Heading.remove_child st p s) stC with hstD
    have hremx : (stC x).children = some (s0 :: rest) := by
      rw [hstC, remove_child_children_ne _ _ _ _ hxp]
      simp
    have hstBp : ((setChildren stB x (some (s0 :: rest))) p).children = some kids := by
      simp only [setChildren_children, hpxF, if_false]
      rw [hstB, foldParent_children]
      simp [hstA, hkids]
    have hrempC : (stC p).children = some (kids.filter fun y => y ≠ x) := by
      rw [hstC]
      exact remove_child_children_self _ _ _ kids hstBp
    have hrempD : (stD p).children
        = some ((s0 :: rest).foldl (fun l s => l.filter fun y => y ≠ s)
            (kids.filter fun y => y ≠ x)) := by
      rw [hstD]
      exact foldRemove_children _ _ _ _ hrempC
    have htake : (s0 :: rest).foldl (fun l s => l.filter fun y => y ≠ s)
        (kids.filter fun y => y ≠ x) = kids.take idx := by
      have h := removeAll_eq_take kids x idx hdec hnd
      rw [hB] at h
      exact h
    refine ⟨rfl, ?_, ?_, ?_, ?_, ?_⟩
    · simp only [setParent_level, hstD, foldRemove_level, hstC, remove_child_level,
        setChildren_level, hstB, foldParent_level, hstA, setSibling_level, setLevel_level]
      simp
    · simp only [setParent_children, hrempD, htake]
    · intro s hs
      have hsx : s ≠ x := fun h => hxB (by rw [hB]; exact h ▸ hs)
      have hsp : s ≠ p := fun h => hpB (by rw [hB]; exact h ▸ hs)
      simp only [setParent_parent, eq_false hsx, if_false, hstD, foldRemove_parent,
        hstC, remove_child_parent, setChildren_parent, hstB]
      rw [foldParent_parent_of_mem _ _ _ _ hs]
    · simp only [setParent_children, hstD]
      rw [foldRemove_apply_ne _ _ _ _ hxp]
      rw [hremx]
    · simp

/-- `demoteSetSibling` only rewrites the node's sibling marker. -/
theorem demoteSetSibling_shape (st : Store) (x np : Nat) :
    ∃ v, demoteSetSibling st x np = setSibling st x v := by
  unfold demoteSetSibling
  cases hnp : (st np).children with
  | none => exact ⟨none, rfl⟩
  | some l =>
    cases hl : l.getLast? with
    | none => exact ⟨none, by simp only [hl]⟩
    | some last => exact ⟨some last, by simp only [hl]⟩

/-- Execution of `demoteReinsert` on a node with children: on success,
the node hangs under `np` with its old children re-inserted under `np`
as well, the first child's sibling marker pointing back at the node,
and the node's own children list cleared. -/
theorem demoteReinsert_props (st : Store) (x np c0 : Nat) (cs : List Nat)
    (hch : (st x).children = some (c0 :: cs))
    (hpar : (st x).parent = some np)
    (hxnp : x ≠ np)
    (hs : (demoteReinsert st x np).2 = none) :
    ((demoteReinsert st x np).1 x).parent = some np ∧
    (∀ c ∈ c0 :: cs, ((demoteReinsert st x np).1 c).parent = some np) ∧
    ((demoteReinsert st x np).1 c0).sibling = some x ∧
    ((demoteReinsert st x np).1 x).children = none ∧
    (∀ c ∈ c0 :: cs, c ∈ childList (((demoteReinsert st x np).1 np).children)) ∧
    x ∈ childList (((demoteReinsert st x np).1 np).children) := by
  unfold demoteReinsert at hs ⊢
  rcases hadd : Heading.add_child st np x false with ⟨st', e⟩
  rw [hadd] at hs
  try rw [hadd]
  cases e with
  | some e => simp at hs
  | none =>
    simp only at hs ⊢
    rcases add_child_cases st np x false with
      ⟨he, _⟩ | ⟨_, l, heq, hmem, _⟩
    · rw [hadd] at he; simp at he
    · rw [hadd] at heq
      simp only at heq
      have hnpx : ¬(x = np) := hxnp
      have hch' : (st' x).children = some (c0 :: cs) := by
        rw [heq, setChildren_children, if_neg hnpx, hch]
      have hpar' : (st' x).parent = some np := by
        rw [heq, setChildren_parent, hpar]
      rw [hch'] at hs ⊢
      simp only at hs ⊢
      have hpar3 : ((setSibling st' c0 (some x)) x).parent = some np := by
        rw [setSibling_parent, hpar']
      rcases hloop : demoteChildLoop (setSibling st' c0 (some x)) x (c0 :: cs) with ⟨stL, eL⟩
      cases eL with
      | some e =>
        rw [hloop] at hs
        exact Option.noConfusion hs
      | none =>
        have hloop2 : (demoteChildLoop (setSibling st' c0 (some x)) x (c0 :: cs)).2
            = none := by rw [hloop]
        have h1 : ((setChildren stL x none) x).parent = some np := by
          rw [setChildren_parent]
          have h := loop_parent_x (c0 :: cs) (setSibling st' c0 (some x)) x
          rw [hloop] at h
          simp only at h
          rw [h, hpar3]
        have h2 : ∀ c ∈ c0 :: cs, ((setChildren stL x none) c).parent = some np := by
          intro c hc
          rw [setChildren_parent]
          have h := loop_success_parents (c0 :: cs) (setSibling st' c0 (some x)) x np
            hpar3 hloop2 c hc
          rw [hloop] at h
          simpa only using h
        have h3 : ((setChildren stL x none) c0).sibling = some x := by
          rw [setChildren_sibling]
          have h := loop_sibling (c0 :: cs) (setSibling st' c0 (some x)) x c0
          rw [hloop] at h
          simp only at h
          rw [h, setSibling_sibling, if_pos rfl]
        have h4 : ((setChildren stL x none) x).children = none := by
          rw [setChildren_children, if_pos rfl]
        have h5 : ∀ c ∈ c0 :: cs, c ∈ childList (((setChildren stL x none) np).children) := by
          intro c hc
          rw [childList, setChildren_children, if_neg (fun h => hxnp h.symm)]
          have h := loop_success_mem (c0 :: cs) (setSibling st' c0 (some x)) x np
            hpar3 hloop2 c hc
          rw [hloop] at h
          simpa only [childList] using h
        have h6 : x ∈ childList (((setChildren stL x none) np).children) := by
          rw [childList, setChildren_children, if_neg (fun h => hxnp h.symm)]
          have hxl : x ∈ childList (((setSibling st' c0 (some x)) np).children) := by
            rw [childList, setSibling_children, heq, setChildren_children, if_pos rfl]
            exact hmem
          have h := loop_mem_mono (c0 :: cs) (setSibling st' c0 (some x)) x np x hxl
          rw [hloop] at h
          simpa only [childList] using h
        exact ⟨h1, h2, h3, h4, h5, h6⟩

/-- `demoteFinish` via the two stages. -/
theorem demoteFinish_props (st : Store) (x np c0 : Nat) (cs : List Nat)
    (hch : (st x).children = some (c0 :: cs))
    (hpar : (st x).parent = some np)
    (hxnp : x ≠ np)
    (hs : (demoteFinish st x np).2 = none) :
    ((demoteFinish st x np).1 x).parent = some np ∧
    (∀ c ∈ c0 :: cs, ((demoteFinish st x np).1 c).parent = some np) ∧
    ((demoteFinish st x np).1 c0).sibling = some x ∧
    ((demoteFinish st x np).1 x).children = none ∧
    (∀ c ∈ c0 :: cs, c ∈ childList (((demoteFinish st x np).1 np).children)) ∧
    x ∈ childList (((demoteFinish st x np).1 np).children) := by
  obtain ⟨v, hv⟩ := demoteSetSibling_shape st x np
  unfold demoteFinish at hs ⊢
  rw [hv] at hs ⊢
  have hch1 : ((setSibling st x v) x).children = some (c0 :: cs) := by
    rw [setSibling_children, hch]
  have hpar1 : ((setSibling st x v) x).parent = some np := by
    rw [setSibling_parent, hpar]
  exact demoteReinsert_props (setSibling st x v) x np c0 cs hch1 hpar1 hxnp hs

/-- Execution of the front half of `Heading.demote` on a node with a
sibling marker, a distinct parent, and a well-defined position among the
parent's children: it reaches `demoteFinish` with the node's children
untouched and its parent re-pointed at the old sibling marker. -/
theorem demote_front (st : Store) (x p s : Nat) (kids : List Nat) (idx : Nat)
    (hsib : (st x).sibling = some s)
    (hpar : (st x).parent = some p)
    (hxp : x ≠ p)
    (hkids : (st p).children = some kids)
    (hidx : pyIndex kids x = some idx) :
    ∃ st1 : Store, Heading.demote st x = demoteFinish st1 x s ∧
      (st1 x).children = (st x).children ∧
      (st1 x).parent = some s := by
  have hcond : ¬(((st x).sibling).isNone = true) := by rw [hsib]; simp
  have hpxF : (p = x) = False := eq_false (Ne.symm hxp)
  have hxpF : (x = p) = False := eq_false hxp
  unfold Heading.demote
  rw [if_neg hcond]
  cases hg : kids.get? (idx + 1) with
  | none =>
    simp only [setLevel_level, setLevel_parent, setLevel_children, setLevel_sibling,
      setSibling_level, setSibling_parent, setSibling_children, setSibling_sibling,
      setParent_level, setParent_parent, setParent_children, setParent_sibling,
      remove_child_level, remove_child_parent, remove_child_sibling,
      hpar, hkids, hidx, hg, hsib, if_true, eq_self_iff_true]
    refine ⟨_, rfl, ?_, ?_⟩
    · rw [setParent_children, remove_child_children_ne _ _ _ _ hxp, setLevel_children]
    · rw [setParent_parent, if_pos rfl]
  | some ns =>
    simp only [setLevel_level, setLevel_parent, setLevel_children, setLevel_sibling,
      setSibling_level, setSibling_parent, setSibling_children, setSibling_sibling,
      setParent_level, setParent_parent, setParent_children, setParent_sibling,
      remove_child_level, remove_child_parent, remove_child_sibling,
      hpar, hkids, hidx, hg, hsib, if_true, ite_self, eq_self_iff_true]
    refine ⟨_, rfl, ?_, ?_⟩
    · rw [setParent_children, remove_child_children_ne _ _ _ _ hxp,
        setSibling_children, setLevel_children]
    · rw [setParent_parent, if_pos rfl]

/-- Claim C6 (amended): when demote succeeds on a node carrying a
preceding-sibling marker (distinct from the node, with a parent distinct
from the node), each of the node's pre-demotion children ends up with
its parent set to the node's NEW parent — the old sibling marker, which
is also where the node itself moved — inserted into that new parent's
children; the first such child's sibling marker is set to the node, and
the node's own children list is cleared afterwards. -/
theorem claim_C6_demote_reparents_children (st : Store) (x p s c0 : Nat) (cs : List Nat)
    (hsib : (st x).sibling = some s)
    (hpar : (st x).parent = some p)
    (hch : (st x).children = some (c0 :: cs))
    (hxp : x ≠ p) (hxs : x ≠ s)
    (hsucc : (Heading.demote st x).2 = none) :
    ((Heading.demote st x).1 x).parent = some s ∧
    (∀ c ∈ c0 :: cs, ((Heading.demote st x).1 c).parent = some s) ∧
    ((Heading.demote st x).1 c0).sibling = some x ∧
    ((Heading.demote st x).1 x).children = none ∧
    (∀ c ∈ c0 :: cs, c ∈ childList (((Heading.demote st x).1 s).children)) ∧
    x ∈ childList (((Heading.demote st x).1 s).children) := by
  have hcond : ¬(((st x).sibling).isNone = true) := by rw [hsib]; simp
  cases hkids : (st p).children with
  | none =>
    exfalso
    unfold Heading.demote at hsucc
    rw [if_neg hcond] at hsucc
    simp only [setLevel_parent, setLevel_children, hpar, hkids] at hsucc
    exact Option.noConfusion hsucc
  | some kids =>
    cases hidx : pyIndex kids x with
    | none =>
      exfalso
      unfold Heading.demote at hsucc
      rw [if_neg hcond] at hsucc
      simp only [setLevel_parent, setLevel_children, hpar, hkids, hidx] at hsucc
      exact Option.noConfusion hsucc
    | some idx =>
      obtain ⟨st1, heq, hch1, hpar1⟩ := demote_front st x p s kids idx hsib hpar hxp hkids hidx
      rw [heq] at hsucc ⊢
      exact demoteFinish_props st1 x s c0 cs (hch1.trans hch) hpar1 hxs hsucc

/-! ## Claim theorems -/

set_option maxRecDepth 10000 in
/-- Claim C1: rendering is claimed to reproduce the source byte for byte
regardless of body length; in fact `Heading.__repr__` truncates any body
whose text (plus newline) exceeds 80 characters to its first 77
characters plus `"..."`, so a heading with a 100-character body renders
truncated and the round-trip fails, while short bodies render in full. -/
theorem claim_C1_repr_truncates_long_body :
    Heading.reprStr hLong
      = "* Test \n" ++ String.mk (List.replicate 77 'a') ++ "...\n" ∧
    Heading.reprStr hLong ≠ "* Test \n" ++ longBody ++ "\n" ∧
    Heading.reprStr hShort = "* Test \n3+4+5+6\n" := by
  refine ⟨by decide, ?_, by decide⟩
  intro h
  have := congrArg String.length h
  revert this
  decide

/-- Claim C2: the `todo` setter never completes — a valid keyword is
stored in `_todo` but the trailing `self.done = self.is_done()` hits the
read-only `done` setter and raises `AttributeError`; an unknown keyword
raises `TypeError` (from `set.union` on plain lists) instead of the
intended `ValueError`; `done` itself is read-only and `is_done` derives
it correctly from the stored keyword. -/
theorem claim_C2_todo_setter_always_raises :
    Headline.setTodo ["TDO"] ["DNE"] hlBase (some "TDO")
      = ({ hlBase with todo := some "TDO" }, some PyError.attributeError) ∧
    Headline.setTodo ["TDO"] ["DNE"] hlBase none = (hlBase, some PyError.attributeError) ∧
    Headline.setTodo ["TDO"] ["DNE"] hlBase (some "BOGUS") = (hlBase, some PyError.typeError) ∧
    Headline.setDone hlBase true = (hlBase, some PyError.attributeError) ∧
    Headline.doneGet ["TDO"] ["DNE"] { hlBase with todo := some "DNE" } = .ok true ∧
    Headline.doneGet ["TDO"] ["DNE"] { hlBase with todo := some "TDO" } = .ok false ∧
    Headline.doneGet ["TDO"] ["DNE"] hlBase = .ok false ∧
    Headline.doneGet ["TDO"] ["DNE"] { hlBase with todo := some "XXX" }
      = .error PyError.valueError := by
  decide

/-- Claim C3: the merge is claimed to fail whenever any keyword is set
on both sides; in fact the conflict loop returns after checking only
`closed`, so merging two deadline-bearing values SUCCEEDS and silently
keeps the left operand's deadline; only a `closed`/`closed` conflict
raises; the scheduled+deadline merge works as described. -/
theorem claim_C3_merge_checks_only_closed :
    Scheduling.add ⟨none, none, some tsD1⟩ ⟨none, none, some tsD2⟩
      = .ok ⟨none, none, some tsD1⟩ ∧
    Scheduling.add ⟨some tsC1, none, none⟩ ⟨some tsC2, none, none⟩
      = .error PyError.valueError ∧
    Scheduling.add ⟨none, some tsD1, none⟩ ⟨none, none, some tsD2⟩
      = .ok ⟨none, some tsD1, some tsD2⟩ := by
  decide

/-- Claim C4: the end time of a ranged timestamp is rendered with
`strftime("%H-%M")` — a DASH between hours and minutes — so the spec's
example renders as `<2024-01-01 Mon 09:00-10-30>`, not the claimed
`<2024-01-01 Mon 09:00-10:30>`. -/
theorem claim_C4_end_time_dash_bug :
    TimeStamp.reprStr tsRange = "<2024-01-01 Mon 09:00-10-30>" ∧
    TimeStamp.reprStr tsRange ≠ "<2024-01-01 Mon 09:00-10:30>" := by
  decide

/-- Claim C5 (amended): the promote/demote precondition failures —
childful promote, sibling-less demote — are raised before any mutation
and return the store untouched; but an inconsistency discovered during
re-linking (the recorded sibling marker not among the grandparent's
children) raises only after part of the rewrite has been applied, so
the tree is NOT left unchanged on that failure. -/
theorem claim_C5_precondition_failures_atomic :
    (∀ (st : Store) (x : Nat), truthy (st x).children = true →
      Heading.promote st x = (st, some PyError.typeError)) ∧
    (∀ (st : Store) (x : Nat), (st x).sibling = none →
      Heading.demote st x = (st, some PyError.valueError)) ∧
    (∃ (st : Store) (x j : Nat) (e : PyError),
      (Heading.promote st x).2 = some e ∧ (Heading.promote st x).1 j ≠ st j) := by
  refine ⟨?_, ?_, ?_⟩
  · intro st x h
    unfold Heading.promote
    rw [if_pos h]
  · intro st x h
    unfold Heading.demote
    rw [if_pos (by rw [h]; rfl)]
  · exact ⟨stIncons, 3, 3, PyError.valueError, by decide, by decide⟩

/-- Claim C5 counterexample: on the inconsistent store, promote raises
(`ValueError` from `add_child`) yet node 3 has been mutated — the tree
is not "exactly as it was before the call". -/
theorem claim_C5_counterexample :
    (Heading.promote stIncons 3).2 = some PyError.valueError ∧
    (Heading.promote stIncons 3).1 3 ≠ stIncons 3 := by
  decide

/-- Claim C5 witness: concrete instances of the two precondition
failures, both leaving the store untouched. -/
theorem claim_C5_witness :
    Heading.promote stDemote 0 = (stDemote, some PyError.typeError) ∧
    Heading.demote stRoot 1 = (stRoot, some PyError.valueError) :=
  ⟨claim_C5_precondition_failures_atomic.1 stDemote 0 (by decide),
   claim_C5_precondition_failures_atomic.2.1 stRoot 1 (by decide)⟩

/-- Claim C6 counterexample: demoting node 2 (old parent 0, sibling
marker 1, child 3) succeeds, and child 3's parent afterwards is node 1 —
the node's NEW parent — not the old parent 0 as the claim states. -/
theorem claim_C6_counterexample :
    (Heading.demote stDemote 2).2 = none ∧
    ((Heading.demote stDemote 2).1 3).parent ≠ some 0 ∧
    ((Heading.demote stDemote 2).1 3).parent = some 1 := by
  decide

/-- Claim C6 witness: the amended theorem at the concrete demotion of
node 2 in `stDemote`. -/
theorem claim_C6_witness :
    ((Heading.demote stDemote 2).1 2).parent = some 1 ∧
    (∀ c ∈ [3], ((Heading.demote stDemote 2).1 c).parent = some 1) ∧
    ((Heading.demote stDemote 2).1 3).sibling = some 2 ∧
    ((Heading.demote stDemote 2).1 2).children = none ∧
    (∀ c ∈ [3], c ∈ childList (((Heading.demote stDemote 2).1 1).children)) ∧
    2 ∈ childList (((Heading.demote stDemote 2).1 1).children) :=
  claim_C6_demote_reparents_children stDemote 2 0 1 3 [] (by decide) (by decide)
    (by decide) (by decide) (by decide) (by decide)

/-- Claim C7 counterexample: an elapsed time of exactly 1 minute 30
seconds displays as `0:01` — the 30 leftover seconds do NOT round up
(the code tests `s > 30`, strictly), contradicting the claimed
round-half-up at exactly 30 seconds. -/
theorem claim_C7_counterexample :
    Clocking.durationAt clkOpen (epochSeconds ⟨2024, 1, 1, 9, 0⟩ + 90) = "0:01" ∧
    Clocking.durationAt clkOpen (epochSeconds ⟨2024, 1, 1, 9, 0⟩ + 90) ≠ "0:02" := by
  decide

/-- Claim C7 (amended): duration is derived, never stored; leftover
seconds STRICTLY greater than 30 round up and exactly 30 rounds down;
the rendering is `H:MM` with the day component omitted when zero and
`Dd H:MM` otherwise; the spec's 09:00→10:31 example gives `1:31`; and
assigning to `duration` raises `TypeError`. -/
theorem claim_C7_duration_rounding :
    Clocking.durationAt ⟨⟨2024, 1, 1, 9, 0⟩, some ⟨2024, 1, 1, 10, 31⟩⟩ 0 = "1:31" ∧
    (∀ q : Nat, q < 60 → display_delta (60 * q + 30) = "0:" ++ pad2 q) ∧
    (∀ q : Nat, q + 1 < 60 → display_delta (60 * q + 31) = "0:" ++ pad2 (q + 1)) ∧
    (∀ D : Nat, 0 < D → display_delta (86400 * D) = toString D ++ "d 0:00") ∧
    (∀ (c : Clocking) (v : String), Clocking.setDuration c v = (c, some PyError.typeError)) := by
  refine ⟨by decide, ?_, ?_, ?_, fun c v => rfl⟩
  · intro q hq
    unfold display_delta
    have h1 : (60 * q + 30) % 60 = 30 := by omega
    have h2 : (60 * q + 30) / 60 = q := by omega
    have h3 : q % 60 = q := Nat.mod_eq_of_lt hq
    have h4 : q / 60 = 0 := Nat.div_eq_of_lt hq
    have h5 : ((30 : Nat) > 30) = False := eq_false (by omega)
    simp only [h1, h2, h5, if_false, h3, h4, Nat.zero_div, Nat.zero_mod,
      eq_self_iff_true, if_true]
    congr 1
  · intro q hq
    unfold display_delta
    have h1 : (60 * q + 31) % 60 = 31 := by omega
    have h2 : (60 * q + 31) / 60 = q := by omega
    have h3 : (q + 1) % 60 = q + 1 := Nat.mod_eq_of_lt hq
    have h4 : (q + 1) / 60 = 0 := Nat.div_eq_of_lt hq
    have h5 : ((31 : Nat) > 30) = True := eq_true (by omega)
    simp only [h1, h2, h5, if_true, h3, h4, Nat.zero_div, Nat.zero_mod,
      eq_self_iff_true]
    congr 1
  · intro D hD
    unfold display_delta
    have h1 : (86400 * D) % 60 = 0 := by omega
    have h2 : (86400 * D) / 60 = 1440 * D := by omega
    have h3 : (1440 * D) % 60 = 0 := by omega
    have h4 : (1440 * D) / 60 = 24 * D := by omega
    have h5 : (24 * D) % 24 = 0 := by omega
    have h6 : (24 * D) / 24 = D := by omega
    have h7 : (D = 0) = False := eq_false (by omega)
    have h8 : ((0 : Nat) > 30) = False := eq_false (by omega)
    simp only [h1, h2, h8, if_false, h3, h4, h5, h6, h7]
    simp only [String.append_assoc]
    congr 1

/-- Claim C7 witness: the amended rounding behavior at concrete inputs. -/
theorem claim_C7_witness :
    display_delta (60 * 29 + 30) = "0:" ++ pad2 29 ∧
    display_delta (60 * 29 + 31) = "0:" ++ pad2 30 ∧
    display_delta (86400 * 2) = toString 2 ++ "d 0:00" :=
  ⟨claim_C7_duration_rounding.2.1 29 (by decide),
   claim_C7_duration_rounding.2.2.1 29 (by decide),
   claim_C7_duration_rounding.2.2.2.1 2 (by decide)⟩

/-- Claim C8: a progress cookie with m > n and the m/n setters raise
`ValueError` as claimed, and in-range operations succeed; but the
percent form `[150%]` raises `UnboundLocalError`/`NameError` (the error
message's f-string reads the unassigned locals `m`, `n`), not the
claimed invalid-value error. -/
theorem claim_C8_cookie_bounds :
    Cookie.init "[150%]" = .error PyError.nameError ∧
    Cookie.init "[5/3]" = .error PyError.valueError ∧
    Cookie.init "[2/5]" = .ok ⟨some "progress", 2, 5⟩ ∧
    Cookie.init "[100%]" = .ok ⟨some "percent", 100, 100⟩ ∧
    Cookie.setM ⟨some "progress", 2, 5⟩ 7 = .error PyError.valueError ∧
    Cookie.setN ⟨some "progress", 2, 5⟩ 1 = .error PyError.valueError ∧
    Cookie.setM ⟨some "progress", 2, 5⟩ 4 = .ok ⟨some "progress", 4, 5⟩ ∧
    Cookie.setN ⟨some "progress", 2, 5⟩ 9 = .ok ⟨some "progress", 2, 9⟩ := by
  decide

/-- Claim C9: `raise`/`lower` move to the adjacent allowed value,
wrapping modulo the three-element set and never failing; raising `C`
wraps to `A`, lowering `A` wraps to `C`, and each operation inverts the
other on every allowed value. -/
theorem claim_C9_priority_cycles (v : String) (h : v ∈ Priority.allowed_values) :
    Priority.raiseP ⟨"C"⟩ = .ok ⟨"A"⟩ ∧
    Priority.lowerP ⟨"A"⟩ = .ok ⟨"C"⟩ ∧
    Priority.raiseP ⟨"A"⟩ = .ok ⟨"B"⟩ ∧
    Priority.raiseP ⟨"B"⟩ = .ok ⟨"C"⟩ ∧
    Priority.lowerP ⟨"C"⟩ = .ok ⟨"B"⟩ ∧
    Priority.lowerP ⟨"B"⟩ = .ok ⟨"A"⟩ ∧
    (Priority.raiseP ⟨v⟩).bind Priority.lowerP = .ok ⟨v⟩ ∧
    (Priority.lowerP ⟨v⟩).bind Priority.raiseP = .ok ⟨v⟩ := by
  fin_cases h <;> exact ⟨by decide, by decide, by decide, by decide, by decide,
    by decide, by decide, by decide⟩

/-- Claim C9 witness: the cycle laws at the allowed value `A`. -/
theorem claim_C9_witness :
    Priority.raiseP ⟨"C"⟩ = .ok ⟨"A"⟩ ∧
    Priority.lowerP ⟨"A"⟩ = .ok ⟨"C"⟩ ∧
    Priority.raiseP ⟨"A"⟩ = .ok ⟨"B"⟩ ∧
    Priority.raiseP ⟨"B"⟩ = .ok ⟨"C"⟩ ∧
    Priority.lowerP ⟨"C"⟩ = .ok ⟨"B"⟩ ∧
    Priority.lowerP ⟨"B"⟩ = .ok ⟨"A"⟩ ∧
    (Priority.raiseP ⟨"A"⟩).bind Priority.lowerP = .ok ⟨"A"⟩ ∧
    (Priority.lowerP ⟨"A"⟩).bind Priority.raiseP = .ok ⟨"A"⟩ :=
  claim_C9_priority_cycles "A" (by decide)

/-- Claim C10 witness: promoting node 1 — a childless child of root 0,
which has no parent — in the concrete store `stRoot`. -/
theorem claim_C10_witness :
    (Heading.promote stRoot 1).2 = some PyError.attributeError ∧
    ((Heading.promote stRoot 1).1 1).level = max ((stRoot 1).level - 1) 1 ∧
    ((Heading.promote stRoot 1).1 0).children = some (([1, 2, 3] : List Nat).take 0) ∧
    (∀ s ∈ ([1, 2, 3] : List Nat).drop 1, ((Heading.promote stRoot 1).1 s).parent = some 1) ∧
    ((Heading.promote stRoot 1).1 1).children = some (([1, 2, 3] : List Nat).drop 1) ∧
    ((Heading.promote stRoot 1).1 1).parent = none :=
  claim_C10_promote_root_child stRoot 1 0 [1, 2, 3] 0 (by decide) (by decide) (by decide)
    (by decide) (by decide) (by decide) (by decide) (by decide)
